import Mathlib

/-!
Shallow embedding of the data pipeline in
official/recommendation/ranking/data/data_pipeline_multi_hot.py.

The file models the single component CriteoTFRecordReader: its constructor,
the feature spec and parse function built inside its call method, and the
dataset pipeline that the call method assembles (file sharding, training
repeat, evaluation padding, truncation, cache and repeat).

Modelling conventions:
* Tensors are lists (vectors) and lists of lists (row-major matrices).
* Machine integers are Nat or Int; float32 payloads are an arbitrary type
  since the code never computes with dense values, it only reshapes them.
* Fallible tensorflow operations (parse_single_example shape enforcement,
  tf.reshape, list indexing) return Option.
* tf.data shuffle stages only reorder elements; all properties under
  verification are insensitive to element order, so the reordering is
  modelled as the identity, keeping the buffer-size argument of the source.
* A dataset ending in .repeat() is modelled by its period list together
  with an nth lookup that cycles through the period.
-/

/-- Element dtypes used by the feature spec of the reader. -/
inductive DType where
  | int64
  | float32
  | string
deriving DecidableEq

/-- tf.io.FixedLenFeature: expected shape and dtype of one field. -/
structure FixedLenFeature where
  shape : List Nat
  dtype : DType
deriving DecidableEq

/-- The slice of config.DataConfig read by this file: params.num_shards,
params.global_batch_size and params.is_training. -/
structure DataConfig where
  num_shards : Nat
  global_batch_size : Nat
  is_training : Bool
deriving DecidableEq

/-- State of a constructed CriteoTFRecordReader object. -/
structure CriteoTFRecordReader where
  file_pattern : String
  params : DataConfig
  num_files : Nat
  num_dense_features : Nat
  vocab_sizes : List Nat
  multi_hot_sizes : List Nat
  embedding_threshold : Nat
  global_batch_size : Nat
  label_features : String
  dense_features : List String
  sparse_features : List String
deriving DecidableEq

/-- Constructor CriteoTFRecordReader.__init__: stores the configuration and
derives the fixed field-name lists.  In the source embedding_threshold
defaults to 0; the default does not affect any claim.  The Python ranges
range(1, 14) and range(14, 40) are List.range' 1 13 and List.range' 14 26. -/
def CriteoTFRecordReader.init (file_pattern : String) (params : DataConfig)
    (num_dense_features : Nat) (vocab_sizes : List Nat)
    (multi_hot_sizes : List Nat) (embedding_threshold : Nat) :
    CriteoTFRecordReader :=
  { file_pattern := file_pattern
    params := params
    num_files := params.num_shards
    num_dense_features := num_dense_features
    vocab_sizes := vocab_sizes
    multi_hot_sizes := multi_hot_sizes
    embedding_threshold := embedding_threshold
    global_batch_size := params.global_batch_size
    label_features := "clicked"
    dense_features := (List.range' 1 13).map (fun x => "int-feature-" ++ toString x)
    sparse_features := (List.range' 14 26).map (fun x => "categorical-feature-" ++ toString x) }

/-- _get_feature_spec: label field as int64[batch], each dense field as
float32[batch], each sparse field as string[batch], in insertion order. -/
def get_feature_spec (reader : CriteoTFRecordReader) (batch_size : Nat) :
    List (String × FixedLenFeature) :=
  (reader.label_features, { shape := [batch_size], dtype := DType.int64 })
    :: (reader.dense_features.map
          (fun nm => (nm, { shape := [batch_size], dtype := DType.float32 }))
      ++ reader.sparse_features.map
          (fun nm => (nm, { shape := [batch_size], dtype := DType.string })))

/-- tf.SparseTensor: indices, values and the dense shape. -/
structure SparseTensor where
  indices : List (Nat × Nat)
  values : List Int
  dense_shape : Nat × Nat
deriving DecidableEq

/-- Row-major entries of one matrix row that survive in a SparseTensor:
position and value of every nonzero element, starting at column j0. -/
def rowEntries (i : Nat) : Nat → List Int → List ((Nat × Nat) × Int)
  | _, [] => []
  | j0, v :: vs =>
    if v = 0 then rowEntries i (j0 + 1) vs
    else ((i, j0), v) :: rowEntries i (j0 + 1) vs

/-- Row-major nonzero entries of a matrix, rows numbered from i0. -/
def matEntries (i0 : Nat) : List (List Int) → List ((Nat × Nat) × Int)
  | [] => []
  | row :: rows => rowEntries i0 0 row ++ matEntries (i0 + 1) rows

/-- tf.sparse.from_dense: keep the positions and values of the nonzero
elements; the dense shape records the row count and the width of the first
row (the input is rectangular whenever the conversion is meaningful). -/
def sparse_from_dense (m : List (List Int)) : SparseTensor :=
  { indices := (matEntries 0 m).map Prod.fst
    values := (matEntries 0 m).map Prod.snd
    dense_shape := (m.length, (m.headD []).length) }

/-- Value stored at one position of a SparseTensor, 0 when absent. -/
def lookupEntry (entries : List ((Nat × Nat) × Int)) (ij : Nat × Nat) : Int :=
  match entries.find? (fun e => decide (e.1 = ij)) with
  | some e => e.2
  | none => 0

/-- tf.sparse.to_dense: densify a SparseTensor back into a matrix. -/
def sparse_to_dense (s : SparseTensor) : List (List Int) :=
  (List.range s.dense_shape.1).map (fun i =>
    (List.range s.dense_shape.2).map (fun j =>
      lookupEntry (s.indices.zip s.values) (i, j)))

/-- A parsed sparse-feature entry: either a dense int64 matrix or a
SparseTensor, depending on the embedding threshold test. -/
inductive SpTensor where
  | dense (mat : List (List Int))
  | sp (t : SparseTensor)
deriving DecidableEq

/-- Whether the entry is materialized densely. -/
def SpTensor.isDense : SpTensor → Bool
  | .dense _ => true
  | .sp _ => false

/-- Logical (densified) contents of a sparse-feature entry. -/
def SpTensor.logical : SpTensor → List (List Int)
  | .dense m => m
  | .sp t => sparse_to_dense t

/-- Row-major reshape of a flat vector into rows x cols (total version). -/
def chunkMat (flat : List Int) (rows cols : Nat) : List (List Int) :=
  (List.range rows).map (fun i => (flat.drop (i * cols)).take cols)

/-- tf.reshape: defined exactly when the element count matches. -/
def reshapeMat (flat : List Int) (rows cols : Nat) : Option (List (List Int)) :=
  if flat.length = rows * cols then some (chunkMat flat rows cols) else none

/-- tf.concat along the last axis of [batch, 1] columns: row i of the
result collects entry i of every column. -/
def concatCols {α : Type} [Inhabited α] (b : Nat) (cols : List (List α)) :
    List (List α) :=
  (List.range b).map (fun i => cols.map (fun col => col.getD i default))

/-- The first w columns of a row-major matrix. -/
def colsOf {α : Type} [Inhabited α] (w : Nat) (mat : List (List α)) :
    List (List α) :=
  (List.range w).map (fun j => mat.map (fun row => row.getD j default))

/-- One serialized example as exposed by tf.io.parse_single_example:
field name to raw contents.  int64Field gives the int64 vector of a field,
floatField the float32 vector of a field, bytesField the int64 vector that
tf.io.decode_raw extracts from the byte strings of a field (flattened over
the batch dimension). -/
structure SerializedRecord (α : Type) where
  int64Field : String → List Int
  floatField : String → List α
  bytesField : String → List Int

/-- A parsed batch: the features dictionary produced by _parse_fn. -/
structure Features (α : Type) where
  clicked : List Int
  dense_features : List (List α)
  sparse_features : List (String × SpTensor)
deriving DecidableEq

/-- Fetch the dense fields in order, enforcing the FixedLenFeature length
of each (a mismatch makes parse_single_example fail). -/
def fetchDense {α : Type} (r : SerializedRecord α) (batch_size : Nat) :
    List String → Option (List (List α))
  | [] => some []
  | nm :: rest =>
    let v := r.floatField nm
    if v.length = batch_size then
      (fetchDense r batch_size rest).map (fun t => v :: t)
    else none

/-- Build the sparse_features dictionary: for the i-th sparse field, decode
its bytes, reshape to [batch_size, multi_hot_sizes[i]], and keep the result
dense unless vocab_sizes[i] exceeds the embedding threshold, in which case
it is converted with tf.sparse.from_dense.  List indexing and reshape are
fallible, as in the source. -/
def buildSparse {α : Type} (r : SerializedRecord α) (batch_size : Nat)
    (multi_hot_sizes vocab_sizes : List Nat) (embedding_threshold : Nat) :
    Nat → List String → Option (List (String × SpTensor))
  | _, [] => some []
  | i, nm :: rest =>
    (multi_hot_sizes.get? i).bind (fun m =>
      (reshapeMat (r.bytesField nm) batch_size m).bind (fun mat =>
        (vocab_sizes.get? i).bind (fun v =>
          (buildSparse r batch_size multi_hot_sizes vocab_sizes
              embedding_threshold (i + 1) rest).map (fun rest' =>
            (toString i,
              if embedding_threshold < v then SpTensor.sp (sparse_from_dense mat)
              else SpTensor.dense mat) :: rest'))))

/-- _parse_fn: decode one serialized example at the resolved batch size.
The label is reshaped to [batch_size] (its FixedLenFeature length check),
the 13 dense columns are reshaped to [batch_size, 1] and concatenated, and
the 26 sparse fields are decoded positionally. -/
def parse_fn {α : Type} [Inhabited α] (reader : CriteoTFRecordReader)
    (batch_size : Nat) (r : SerializedRecord α) : Option (Features α) :=
  if (r.int64Field reader.label_features).length = batch_size then
    (fetchDense r batch_size reader.dense_features).bind (fun cols =>
      (buildSparse r batch_size reader.multi_hot_sizes reader.vocab_sizes
          reader.embedding_threshold 0 reader.sparse_features).map (fun sparse =>
        { clicked := r.int64Field reader.label_features
          dense_features := concatCols batch_size cols
          sparse_features := sparse }))
  else none

/-- tf.distribute.InputContext: worker count, worker index, and the
batch-size divider. -/
structure InputContext where
  num_input_pipelines : Nat
  input_pipeline_id : Nat
  get_per_replica_batch_size : Nat → Nat

/-- Lines 53 to 57 of the source: per replica batch size is taken from the
context when one is given and falls back to the global batch size. -/
def resolve_batch_size (ctx : Option InputContext) (global_batch_size : Nat) : Nat :=
  match ctx with
  | some c => c.get_per_replica_batch_size global_batch_size
  | none => global_batch_size

/-- Line 118 of the source:
parallelism = max(1, min(8, num_files // num_input_pipelines)). -/
def parallelismOf (num_files num_input_pipelines : Nat) : Nat :=
  max 1 (min 8 (num_files / num_input_pipelines))

/-- Dataset.shard(n, i): keeps exactly the elements whose position in the
incoming sequence is congruent to i modulo n. -/
def shardList {α : Type} (n i : Nat) (l : List α) : List α :=
  (l.enum.filter (fun p => p.1 % n == i)).map Prod.snd

/-- The positions of a length-len list that shard(n, i) keeps. -/
def posIdx (n i len : Nat) : List Nat :=
  (List.range len).filter (fun k => k % n == i)

/-- Dataset.shuffle(buffer): reorders elements within a bounded buffer.
Every property under verification is insensitive to element order, so the
reordering is abstracted as the identity; the buffer-size argument of the
source is kept. -/
def shuffleD {α : Type} (_buffer : Nat) (l : List α) : List α := l

/-- Module constant NUM_DATASET_SAMPLES. -/
def NUM_DATASET_SAMPLES : Nat := 89137319

/-- Lines 143 to 145 of the source:
num_dataset_batches = (NUM_DATASET_SAMPLES + global_batch_size - 1) // global_batch_size. -/
def numDatasetBatches (global_batch_size : Nat) : Nat :=
  (NUM_DATASET_SAMPLES + global_batch_size - 1) / global_batch_size

/-- _mark_as_padding: replace the labels of a batch by -1 * ones([batch_size]);
dense and sparse contents are untouched. -/
def mark_as_padding {α : Type} (batch_size : Nat) (f : Features α) : Features α :=
  { f with clicked := List.replicate batch_size (-1) }

/-- padding_ds = dataset.take(1).map(_mark_as_padding).repeat(100):
one hundred copies of the first available batch, relabeled as padding. -/
def padding_tail {α : Type} (batch_size : Nat) (batches : List (Features α)) :
    List (Features α) :=
  (List.replicate 100 ((batches.take 1).map (mark_as_padding batch_size))).flatten

/-- A dataset of the form d.repeat(): the period list cycled forever.
In training mode the period is one pass over the shard (the repeat sits at
the file level, so the record sequence is the per-pass record sequence
cycled); in evaluation mode the period is the cached truncated sequence. -/
structure RepeatedDataset (β : Type) where
  period : List β

/-- Element k of the cycled sequence; none exactly when the period is empty
(repeat of an empty dataset is empty). -/
def RepeatedDataset.nth {β : Type} (d : RepeatedDataset β) (k : Nat) : Option β :=
  d.period.get? (k % d.period.length)

/-- The produced sequence is infinite: every element request succeeds. -/
def RepeatedDataset.infinite {β : Type} (d : RepeatedDataset β) : Prop :=
  ∀ k, (d.nth k).isSome = true

/-- CriteoTFRecordReader.__call__, lines 51 to 168 of the source.

The stages follow the source order: batch-size resolution, the parallelism
computation (which dereferences ctx unconditionally, hence the error branch
for an absent context), file sharding by worker, the training-only file
shuffle and repeat, TFRecord reading, parsing, the 256-element batch
shuffle, and the evaluation-only padding, truncation, cache and repeat.

recordsOf maps a file to its record sequence (TFRecordDataset); parse is
the per-record map stage, abstracted as a total function of the resolved
batch size because a parse failure aborts the stream (spec section 7) and
every pipeline claim quantifies over the parsed batches.  Concurrent reads
only interleave element order, which is abstracted, so reading the repeated
file sequence yields the per-pass record concatenation, cycled; both
branches therefore return a RepeatedDataset.  list_files discovery is
modelled by the files argument.  Buffer sizes, prefetch depth and the
thread pool only tune performance and do not appear. -/
def CriteoTFRecordReader.call {φ ρ α : Type} (reader : CriteoTFRecordReader)
    (recordsOf : φ → List ρ) (parse : Nat → ρ → Features α)
    (files : List φ) (ctx : Option InputContext) :
    Except String (RepeatedDataset (Features α)) :=
  let batch_size := resolve_batch_size ctx reader.params.global_batch_size
  match ctx with
  | none => Except.error "NoneType has no member num_input_pipelines"
  | some c =>
    let parallelism := parallelismOf reader.num_files c.num_input_pipelines
    let sharded := shardList c.num_input_pipelines c.input_pipeline_id files
    let fileSeq := if reader.params.is_training then shuffleD parallelism sharded else sharded
    let records := fileSeq.flatMap recordsOf
    let batches := shuffleD 256 (records.map (parse batch_size))
    if reader.params.is_training then
      Except.ok { period := batches }
    else
      let cached := (batches ++ padding_tail batch_size batches).take
        (numDatasetBatches reader.global_batch_size)
      Except.ok { period := cached }

/-! Concrete inputs used to instantiate the theorems below. -/

/-- A small training data config. -/
def wParams : DataConfig :=
  { num_shards := 4, global_batch_size := 8, is_training := true }

/-- Vocabulary sizes alternating below and above the threshold 5. -/
def wVocab : List Nat :=
  [3, 9, 3, 9, 3, 9, 3, 9, 3, 9, 3, 9, 3, 9, 3, 9, 3, 9, 3, 9, 3, 9, 3, 9, 3, 9]

/-- Multi-hot widths, all 1. -/
def wMulti : List Nat := List.replicate 26 1

/-- A concrete reader with embedding threshold 5. -/
def wReader : CriteoTFRecordReader :=
  CriteoTFRecordReader.init "criteo*.tfrecord" wParams 13 wVocab wMulti 5

/-- A concrete serialized record at batch size 1: every int64 field holds
[1], every float field [3], every byte-decoded field [7]. -/
def wRecord : SerializedRecord Int :=
  { int64Field := fun _ => [1]
    floatField := fun _ => [3]
    bytesField := fun _ => [7] }

/-- The SparseTensor obtained from the 1 x 1 matrix [[7]]. -/
def wSparse : SparseTensor := sparse_from_dense [[7]]

/-- The batch that parsing wRecord at batch size 1 produces. -/
def wFeatures : Features Int :=
  { clicked := [1]
    dense_features := [List.replicate 13 3]
    sparse_features := (List.range 26).map (fun i =>
      (toString i,
        if 5 < wVocab.getD i 0 then SpTensor.sp wSparse else SpTensor.dense [[7]])) }

/-- A concrete real batch for the padding theorem. -/
def wBatch : Features Int :=
  { clicked := [5], dense_features := [[2]], sparse_features := [] }

/-- Single-worker input context dividing nothing. -/
def wCtx : InputContext :=
  { num_input_pipelines := 1
    input_pipeline_id := 0
    get_per_replica_batch_size := fun g => g }

/-- A file universe with a single file carrying a single record. -/
def wRecordsOf : Unit → List Unit := fun _ => [()]

/-- A parse stage producing an empty batch, enough for counting claims. -/
def wParse : Nat → Unit → Features Int :=
  fun _ _ => { clicked := [], dense_features := [], sparse_features := [] }

/-- Evaluation config whose global batch size equals the dataset size, so
one batch suffices per epoch. -/
def w2Params : DataConfig :=
  { num_shards := 1, global_batch_size := 89137319, is_training := false }

/-- Evaluation config with global batch size 89137, asking for 1001 batches
per epoch. -/
def x2Params : DataConfig :=
  { num_shards := 1, global_batch_size := 89137, is_training := false }

/-- Training config for the infinite-sequence theorems. -/
def w7Params : DataConfig :=
  { num_shards := 1, global_batch_size := 8, is_training := true }

/-- A file universe whose single file holds no records. -/
def x7RecordsOf : Unit → List Unit := fun _ => []

/-! Helper lemmas about lists. -/

theorem map_getD_range {α : Type} (l : List α) (d : α) :
    (List.range l.length).map (fun i => l.getD i d) = l := by
  induction l with
  | nil => rfl
  | cons x xs ih =>
    rw [List.length_cons, List.range_succ_eq_map, List.map_cons, List.map_map,
      List.getD_cons_zero]
    congr 1

theorem filterMap_congr_mem {α β : Type} {f g : α → Option β} :
    ∀ (l : List α), (∀ a ∈ l, f a = g a) → l.filterMap f = l.filterMap g := by
  intro l
  induction l with
  | nil => intro _; rfl
  | cons x xs ih =>
    intro h
    rw [List.filterMap_cons, List.filterMap_cons, h x (by simp),
      ih (fun a ha => h a (by simp [ha]))]

theorem flatMap_congr_mem {α β : Type} {f g : α → List β} :
    ∀ (l : List α), (∀ a ∈ l, f a = g a) → l.flatMap f = l.flatMap g := by
  intro l
  induction l with
  | nil => intro _; rfl
  | cons x xs ih =>
    intro h
    rw [List.flatMap_cons, List.flatMap_cons, h x (by simp),
      ih (fun a ha => h a (by simp [ha]))]

theorem enumFrom_filter_map_snd {α : Type} (p : Nat → Bool) :
    ∀ (l : List α) (s : Nat),
      ((List.enumFrom s l).filter (fun q => p q.1)).map Prod.snd
        = ((List.range' s l.length).filter p).filterMap (fun k => l.get? (k - s)) := by
  intro l
  induction l with
  | nil => intro s; rfl
  | cons x xs ih =>
    intro s
    rw [List.enumFrom_cons, List.length_cons, List.range'_succ]
    have htail : ((List.range' (s + 1) xs.length).filter p).filterMap
          (fun k => (x :: xs).get? (k - s))
        = ((List.range' (s + 1) xs.length).filter p).filterMap
          (fun k => xs.get? (k - (s + 1))) := by
      apply filterMap_congr_mem
      intro k hk
      have hge : s + 1 ≤ k := by
        obtain ⟨m, _, rfl⟩ := List.mem_range'.mp (List.mem_filter.mp hk).1
        omega
      have h1 : k - s = (k - (s + 1)) + 1 := by omega
      rw [h1, List.get?_cons_succ]
    by_cases hp : p s
    · simp only [List.filter_cons, hp, if_true]
      simp only [List.map_cons, List.filterMap_cons, Nat.sub_self, List.get?_cons_zero]
      rw [ih (s + 1), htail]
    · simp only [List.filter_cons, hp, if_false, Bool.false_eq_true]
      rw [ih (s + 1), htail]

theorem shard_eq_posIdx {α : Type} (n i : Nat) (l : List α) :
    shardList n i l = (posIdx n i l.length).filterMap l.get? := by
  have h := enumFrom_filter_map_snd (fun k => k % n == i) l 0
  rw [shardList, posIdx, show l.enum = List.enumFrom 0 l from rfl, h,
    ← List.range_eq_range']
  apply filterMap_congr_mem
  intro k _
  rw [Nat.sub_zero]

theorem filterMap_get?_range {α : Type} (l : List α) :
    (List.range l.length).filterMap l.get? = l := by
  induction l with
  | nil => rfl
  | cons x xs ih =>
    rw [List.length_cons, List.range_succ_eq_map, List.filterMap_cons,
      List.get?_cons_zero, List.filterMap_map]
    have h2 : (List.range xs.length).filterMap ((x :: xs).get? ∘ Nat.succ)
        = (List.range xs.length).filterMap xs.get? :=
      filterMap_congr_mem _ (fun a _ => by simp [Function.comp, List.get?_cons_succ])
    rw [h2, ih]

theorem bucket_cons_perm {β : Type} (g : Nat → List β) (x : β) (n w0 : Nat)
    (h : w0 < n) :
    ((List.range n).flatMap (fun w => if w = w0 then x :: g w else g w)).Perm
      (x :: (List.range n).flatMap g) := by
  induction n with
  | zero => omega
  | succ n ih =>
    rw [List.range_succ, List.flatMap_append, List.flatMap_append]
    simp only [List.flatMap_cons, List.flatMap_nil, List.append_nil]
    by_cases hw : n = w0
    · subst hw
      have h2 : (List.range n).flatMap (fun w => if w = n then x :: g w else g w)
          = (List.range n).flatMap g :=
        flatMap_congr_mem _ (fun w hw2 => by
          rw [if_neg (Nat.ne_of_lt (List.mem_range.mp hw2))])
      rw [h2, if_pos rfl]
      exact List.perm_middle
    · rw [if_neg hw]
      have h0 : w0 < n := by omega
      exact (ih h0).append_right (g n)

theorem bucket_perm {β : Type} (b : β → Nat) (n : Nat) :
    ∀ (L : List β), (∀ x ∈ L, b x < n) →
      ((List.range n).flatMap (fun w => L.filter (fun x => b x == w))).Perm L := by
  intro L
  induction L with
  | nil => intro _; simp
  | cons x xs ih =>
    intro hL
    have hx : b x < n := hL x (by simp)
    have hxs : ∀ y ∈ xs, b y < n := fun y hy => hL y (by simp [hy])
    have hstep : (List.range n).flatMap (fun w => (x :: xs).filter (fun y => b y == w))
        = (List.range n).flatMap (fun w =>
            if w = b x then x :: xs.filter (fun y => b y == w)
            else xs.filter (fun y => b y == w)) := by
      apply flatMap_congr_mem
      intro w _
      by_cases hw : w = b x
      · subst hw
        rw [List.filter_cons, if_pos (by simp), if_pos rfl]
      · rw [List.filter_cons, if_neg (by simp [Ne.symm hw]), if_neg hw]
    rw [hstep]
    exact (bucket_cons_perm _ x n (b x) hx).trans ((ih hxs).cons x)

theorem posIdx_partition_perm (n len : Nat) (hn : 0 < n) :
    ((List.range n).flatMap (fun w => posIdx n w len)).Perm (List.range len) :=
  bucket_perm (fun k => k % n) n (List.range len) (fun k _ => Nat.mod_lt k hn)

theorem filterMap_flatMap_distrib {α β γ : Type} (l : List α) (g : α → List β)
    (f : β → Option γ) :
    (l.flatMap g).filterMap f = l.flatMap (fun a => (g a).filterMap f) := by
  induction l with
  | nil => rfl
  | cons x xs ih =>
    rw [List.flatMap_cons, List.flatMap_cons, List.filterMap_append, ih]

theorem shards_flatMap_perm {α : Type} (n : Nat) (hn : 0 < n) (l : List α) :
    ((List.range n).flatMap (fun w => shardList n w l)).Perm l := by
  have h1 : (List.range n).flatMap (fun w => shardList n w l)
      = (List.range n).flatMap (fun w => (posIdx n w l.length).filterMap l.get?) :=
    flatMap_congr_mem _ (fun w _ => shard_eq_posIdx n w l)
  rw [h1, ← filterMap_flatMap_distrib]
  have h2 := (posIdx_partition_perm n l.length hn).filterMap l.get?
  rw [filterMap_get?_range] at h2
  exact h2

theorem posIdx_disjoint (n i j len : Nat) (hij : i ≠ j) :
    List.Disjoint (posIdx n i len) (posIdx n j len) := by
  intro k hk1 hk2
  rw [posIdx, List.mem_filter, beq_iff_eq] at hk1 hk2
  exact hij (hk1.2 ▸ hk2.2)

theorem mem_rowEntries :
    ∀ (row : List Int) (i j0 : Nat), ∀ e ∈ rowEntries i j0 row,
      e.1.1 = i ∧ j0 ≤ e.1.2 := by
  intro row
  induction row with
  | nil => intro i j0 e he; simp [rowEntries] at he
  | cons v vs ih =>
    intro i j0 e he
    rw [rowEntries] at he
    by_cases hv : v = 0
    · rw [if_pos hv] at he
      have h2 := ih i (j0 + 1) e he
      exact ⟨h2.1, by omega⟩
    · rw [if_neg hv, List.mem_cons] at he
      rcases he with he | he
      · subst he
        exact ⟨rfl, Nat.le_refl _⟩
      · have h2 := ih i (j0 + 1) e he
        exact ⟨h2.1, by omega⟩

theorem find?_rowEntries :
    ∀ (row : List Int) (i j0 j : Nat),
      (rowEntries i j0 row).find? (fun e => decide (e.1 = (i, j0 + j)))
        = if row.getD j 0 = 0 then none
          else some ((i, j0 + j), row.getD j 0) := by
  intro row
  induction row with
  | nil => intro i j0 j; simp [rowEntries]
  | cons v vs ih =>
    intro i j0 j
    rw [rowEntries]
    cases j with
    | zero =>
      rw [Nat.add_zero, List.getD_cons_zero]
      by_cases hv : v = 0
      · rw [if_pos hv, if_pos hv]
        rw [List.find?_eq_none]
        intro e he
        have h2 := mem_rowEntries vs i (j0 + 1) e he
        simp only [decide_eq_true_eq]
        intro hcontra
        have : e.1.2 = j0 := by rw [hcontra]
        omega
      · rw [if_neg hv, if_neg hv]
        rw [List.find?_cons_of_pos _ (by simp)]
    | succ j' =>
      rw [List.getD_cons_succ]
      have hidx : j0 + (j' + 1) = (j0 + 1) + j' := by omega
      rw [hidx]
      by_cases hv : v = 0
      · rw [if_pos hv]
        exact ih i (j0 + 1) j'
      · rw [if_neg hv]
        rw [List.find?_cons_of_neg _ (by simp; omega)]
        exact ih i (j0 + 1) j'

theorem mem_matEntries :
    ∀ (rows : List (List Int)) (i0 : Nat), ∀ e ∈ matEntries i0 rows,
      i0 ≤ e.1.1 := by
  intro rows
  induction rows with
  | nil => intro i0 e he; simp [matEntries] at he
  | cons row rest ih =>
    intro i0 e he
    rw [matEntries, List.mem_append] at he
    rcases he with he | he
    · exact Nat.le_of_eq (mem_rowEntries row i0 0 e he).1.symm
    · have h2 := ih (i0 + 1) e he
      omega

theorem find?_matEntries :
    ∀ (rows : List (List Int)) (i0 i j : Nat),
      (matEntries i0 rows).find? (fun e => decide (e.1 = (i0 + i, j)))
        = if (rows.getD i []).getD j 0 = 0 then none
          else some ((i0 + i, j), (rows.getD i []).getD j 0) := by
  intro rows
  induction rows with
  | nil => intro i0 i j; simp [matEntries]
  | cons row rest ih =>
    intro i0 i j
    rw [matEntries, List.find?_append]
    cases i with
    | zero =>
      rw [Nat.add_zero, List.getD_cons_zero]
      have hrow := find?_rowEntries row i0 0 j
      rw [Nat.zero_add] at hrow
      by_cases hv : row.getD j 0 = 0
      · rw [if_pos hv] at hrow
        rw [hrow, if_pos hv, Option.none_or, List.find?_eq_none]
        intro e he
        have h2 := mem_matEntries rest (i0 + 1) e he
        simp only [decide_eq_true_eq]
        intro hcontra
        have : e.1.1 = i0 := by rw [hcontra]
        omega
      · rw [if_neg hv] at hrow
        rw [hrow, if_neg hv]
        rfl
    | succ i' =>
      rw [List.getD_cons_succ]
      have hhead : (rowEntries i0 0 row).find? (fun e => decide (e.1 = (i0 + (i' + 1), j)))
          = none := by
        rw [List.find?_eq_none]
        intro e he
        have h2 := (mem_rowEntries row i0 0 e he).1
        simp only [decide_eq_true_eq]
        intro hcontra
        have : e.1.1 = i0 + (i' + 1) := by rw [hcontra]
        omega
      rw [hhead, Option.none_or]
      have hidx : i0 + (i' + 1) = (i0 + 1) + i' := by omega
      rw [hidx]
      exact ih (i0 + 1) i' j

theorem lookupEntry_matEntries (m : List (List Int)) (i j : Nat) :
    lookupEntry (matEntries 0 m) (i, j) = (m.getD i []).getD j 0 := by
  have h := find?_matEntries m 0 i j
  rw [Nat.zero_add] at h
  rw [lookupEntry, h]
  by_cases hv : (m.getD i []).getD j 0 = 0
  · rw [if_pos hv, hv]
  · rw [if_neg hv]

/-- Round trip: densifying the SparseTensor made from a rectangular matrix
restores the matrix. -/
theorem sparse_to_dense_from_dense (m : List (List Int))
    (hrect : ∀ row ∈ m, row.length = (m.headD []).length) :
    sparse_to_dense (sparse_from_dense m) = m := by
  have hzip : ((sparse_from_dense m).indices.zip (sparse_from_dense m).values)
      = matEntries 0 m := by
    show ((matEntries 0 m).map Prod.fst).zip ((matEntries 0 m).map Prod.snd)
        = matEntries 0 m
    rw [List.zip_map']
    simp
  rw [sparse_to_dense, hzip]
  have hshape1 : (sparse_from_dense m).dense_shape.1 = m.length := rfl
  have hshape2 : (sparse_from_dense m).dense_shape.2 = (m.headD []).length := rfl
  rw [hshape1, hshape2]
  apply List.ext_getElem
  · simp
  · intro k h1 h2
    rw [List.getElem_map, List.getElem_range]
    have hmem : m[k] ∈ m := List.getElem_mem h2
    have hlen : m[k].length = (m.headD []).length := hrect _ hmem
    rw [← hlen]
    have hmap : (List.range m[k].length).map (fun j => lookupEntry (matEntries 0 m) (k, j))
        = (List.range m[k].length).map (fun j => m[k].getD j 0) :=
      List.map_congr_left (fun j _ => by
        rw [lookupEntry_matEntries, List.getD_eq_getElem m [] h2])
    rw [hmap, map_getD_range]

theorem chunkMat_length (flat : List Int) (b m : Nat) :
    (chunkMat flat b m).length = b := by
  simp [chunkMat]

theorem chunkMat_row_length (flat : List Int) (b m : Nat)
    (h : flat.length = b * m) :
    ∀ row ∈ chunkMat flat b m, row.length = m := by
  intro row hrow
  rw [chunkMat] at hrow
  obtain ⟨i, hi, rfl⟩ := List.mem_map.mp hrow
  have hib : i < b := List.mem_range.mp hi
  rw [List.length_take, List.length_drop, h]
  have h1 : 0 < b - i := by omega
  have h2 : m ≤ (b - i) * m := Nat.le_mul_of_pos_left m h1
  have h3 : (b - i) * m = b * m - i * m := Nat.sub_mul b i m
  omega

theorem chunkMat_map_length (flat : List Int) (b m : Nat)
    (h : flat.length = b * m) :
    (chunkMat flat b m).map List.length = List.replicate b m := by
  apply List.ext_getElem
  · simp [chunkMat]
  · intro i hi1 hi2
    rw [List.getElem_map, List.getElem_replicate]
    apply chunkMat_row_length flat b m h
    apply List.getElem_mem

theorem chunkMat_rect (flat : List Int) (b m : Nat) (h : flat.length = b * m) :
    ∀ row ∈ chunkMat flat b m,
      row.length = ((chunkMat flat b m).headD []).length := by
  intro row hrow
  rw [chunkMat_row_length flat b m h row hrow]
  cases hc : chunkMat flat b m with
  | nil => rw [hc] at hrow; cases hrow
  | cons r0 rs =>
    have hr0 : r0 ∈ chunkMat flat b m := by
      rw [hc]; exact List.mem_cons_self _ _
    rw [List.headD_cons]
    exact (chunkMat_row_length flat b m h r0 hr0).symm

theorem fetchDense_eq_some {α : Type} (r : SerializedRecord α) (b : Nat) :
    ∀ (names : List String) (cols : List (List α)),
      fetchDense r b names = some cols →
        cols = names.map r.floatField ∧ ∀ v ∈ cols, v.length = b := by
  intro names
  induction names with
  | nil =>
    intro cols h
    rw [fetchDense] at h
    cases h
    exact ⟨rfl, by simp⟩
  | cons nm rest ih =>
    intro cols h
    rw [fetchDense] at h
    by_cases hl : (r.floatField nm).length = b
    · rw [if_pos hl] at h
      cases hrest : fetchDense r b rest with
      | none => rw [hrest] at h; cases h
      | some t =>
        rw [hrest, Option.map_some'] at h
        injection h with h2
        subst h2
        obtain ⟨ht1, ht2⟩ := ih t hrest
        refine ⟨by rw [List.map_cons, ← ht1], ?_⟩
        intro v hv
        rcases List.mem_cons.mp hv with hv | hv
        · subst hv; exact hl
        · exact ht2 v hv
    · rw [if_neg hl] at h
      cases h

theorem buildSparse_eq_some {α : Type} (r : SerializedRecord α) (b : Nat)
    (multi vocab : List Nat) (thr : Nat) :
    ∀ (names : List String) (i : Nat) (out : List (String × SpTensor)),
      buildSparse r b multi vocab thr i names = some out →
        out.map Prod.fst = (List.range' i names.length).map toString
        ∧ out.map (fun p => p.2.isDense)
            = (List.range' i names.length).map (fun j => decide (vocab.getD j 0 ≤ thr))
        ∧ out.map (fun p => p.2.logical)
            = ((List.range' i names.length).zip names).map
                (fun q => chunkMat (r.bytesField q.2) b (multi.getD q.1 0))
        ∧ out.map (fun p => (p.2.logical.length, p.2.logical.map List.length))
            = (List.range' i names.length).map
                (fun j => (b, List.replicate b (multi.getD j 0))) := by
  intro names
  induction names with
  | nil =>
    intro i out h
    rw [buildSparse] at h
    cases h
    exact ⟨rfl, rfl, rfl, rfl⟩
  | cons nm rest ih =>
    intro i out h
    rw [buildSparse] at h
    cases hm : multi.get? i with
    | none => rw [hm] at h; cases h
    | some m =>
      rw [hm, Option.some_bind] at h
      cases hr : reshapeMat (r.bytesField nm) b m with
      | none => rw [hr] at h; cases h
      | some mat =>
        rw [hr, Option.some_bind] at h
        have hlen : (r.bytesField nm).length = b * m := by
          by_contra hc
          rw [reshapeMat, if_neg hc] at hr
          cases hr
        have hmat : mat = chunkMat (r.bytesField nm) b m := by
          rw [reshapeMat, if_pos hlen] at hr
          injection hr with h2
          exact h2.symm
        subst hmat
        cases hv : vocab.get? i with
        | none => rw [hv] at h; cases h
        | some v =>
          rw [hv, Option.some_bind] at h
          cases hrest : buildSparse r b multi vocab thr (i + 1) rest with
          | none => rw [hrest] at h; cases h
          | some out' =>
            rw [hrest, Option.map_some'] at h
            injection h with h2
            subst h2
            obtain ⟨h1, h2, h3, h4⟩ := ih (i + 1) out' hrest
            have hgetDv : vocab.getD i 0 = v := by
              rw [List.getD_eq_getD_get?, hv]
              rfl
            have hgetDm : multi.getD i 0 = m := by
              rw [List.getD_eq_getD_get?, hm]
              rfl
            have hlog : (if thr < v then
                  SpTensor.sp (sparse_from_dense (chunkMat (r.bytesField nm) b m))
                else SpTensor.dense (chunkMat (r.bytesField nm) b m)).logical
                = chunkMat (r.bytesField nm) b m := by
              by_cases hth : thr < v
              · rw [if_pos hth]
                show sparse_to_dense (sparse_from_dense (chunkMat (r.bytesField nm) b m)) = _
                exact sparse_to_dense_from_dense _ (chunkMat_rect _ _ _ hlen)
              · rw [if_neg hth]
                rfl
            have hden : (if thr < v then
                  SpTensor.sp (sparse_from_dense (chunkMat (r.bytesField nm) b m))
                else SpTensor.dense (chunkMat (r.bytesField nm) b m)).isDense
                = decide (vocab.getD i 0 ≤ thr) := by
              rw [hgetDv]
              by_cases hth : thr < v
              · rw [if_pos hth]
                exact (decide_eq_false (by omega)).symm
              · rw [if_neg hth]
                exact (decide_eq_true (by omega)).symm
            rw [List.length_cons, List.range'_succ]
            refine ⟨?_, ?_, ?_, ?_⟩
            · rw [List.map_cons, List.map_cons, h1]
            · rw [List.map_cons, List.map_cons, h2, hden]
            · rw [List.zip_cons_cons, List.map_cons, List.map_cons, h3]
              congr 1
              rw [hlog, hgetDm]
            · rw [List.map_cons, List.map_cons, h4]
              congr 1
              rw [hlog, hgetDm, chunkMat_length, chunkMat_map_length _ _ _ hlen]

theorem concatCols_length {α : Type} [Inhabited α] (b : Nat) (cols : List (List α)) :
    (concatCols b cols).length = b := by
  simp [concatCols]

theorem concatCols_row_length {α : Type} [Inhabited α] (b : Nat)
    (cols : List (List α)) :
    (concatCols b cols).map List.length = List.replicate b cols.length := by
  rw [concatCols, List.map_map]
  have h : (List.length ∘ fun i => cols.map (fun col => col.getD i default))
      = fun _ => cols.length := by
    funext i
    simp
  rw [h, List.map_const', List.length_range]

theorem colsOf_concatCols {α : Type} [Inhabited α] (b : Nat) (cols : List (List α))
    (h : ∀ v ∈ cols, v.length = b) :
    colsOf cols.length (concatCols b cols) = cols := by
  rw [colsOf]
  have hcol : ∀ (j : Nat) (hj : j < cols.length),
      (concatCols b cols).map (fun row => row.getD j default) = cols.get ⟨j, hj⟩ := by
    intro j hj
    rw [concatCols, List.map_map]
    have h2 : ((fun row => row.getD j default)
          ∘ fun i => cols.map (fun col => col.getD i default))
        = fun i => (cols.get ⟨j, hj⟩).getD i default := by
      funext i
      show (cols.map (fun col => col.getD i default)).getD j default = _
      rw [List.getD_eq_getD_get?, List.get?_map, List.get?_eq_get hj, Option.map_some']
      rfl
    rw [h2]
    have hlen : (cols.get ⟨j, hj⟩).length = b := h _ (List.get_mem cols j hj)
    rw [← hlen, map_getD_range]
  have h3 : (List.range cols.length).map
        (fun j => (concatCols b cols).map (fun row => row.getD j default))
      = (List.range cols.length).map (fun j => cols.getD j []) :=
    List.map_congr_left (fun j hj =>
      (hcol j (List.mem_range.mp hj)).trans
        (List.getD_eq_get cols [] (List.mem_range.mp hj)).symm)
  rw [h3, map_getD_range]

theorem flatten_replicate_singleton {β : Type} (k : Nat) (y : β) :
    (List.replicate k [y]).flatten = List.replicate k y := by
  induction k with
  | zero => rfl
  | succ n ih =>
    rw [List.replicate_succ, List.replicate_succ, List.flatten_cons, ih]
    rfl

theorem padding_tail_cons {α : Type} (b : Nat) (x : Features α)
    (rest : List (Features α)) :
    padding_tail b (x :: rest) = List.replicate 100 (mark_as_padding b x) := by
  rw [padding_tail]
  show (List.replicate 100 [mark_as_padding b x]).flatten = _
  exact flatten_replicate_singleton 100 (mark_as_padding b x)

theorem padding_tail_length {α : Type} (b : Nat) (batches : List (Features α))
    (h : batches ≠ []) : (padding_tail b batches).length = 100 := by
  obtain ⟨x, rest, rfl⟩ := List.exists_cons_of_ne_nil h
  rw [padding_tail_cons, List.length_replicate]

theorem nth_isSome_of_ne_nil {β : Type} (d : RepeatedDataset β)
    (h : d.period ≠ []) : d.infinite := by
  intro k
  rw [RepeatedDataset.nth]
  have hlen : 0 < d.period.length := List.length_pos.mpr h
  have hk : k % d.period.length < d.period.length := Nat.mod_lt k hlen
  rw [List.get?_eq_get hk]
  rfl

theorem numDatasetBatches_ceil (B : Nat) (hB : 0 < B) :
    NUM_DATASET_SAMPLES ≤ B * numDatasetBatches B
    ∧ B * numDatasetBatches B < NUM_DATASET_SAMPLES + B := by
  have h1 := Nat.div_add_mod (NUM_DATASET_SAMPLES + B - 1) B
  have h2 : (NUM_DATASET_SAMPLES + B - 1) % B < B := Nat.mod_lt _ hB
  have h3 : NUM_DATASET_SAMPLES = 89137319 := rfl
  rw [numDatasetBatches]
  omega

theorem call_some_training {φ ρ α : Type} (reader : CriteoTFRecordReader)
    (recordsOf : φ → List ρ) (parse : Nat → ρ → Features α)
    (files : List φ) (c : InputContext)
    (h : reader.params.is_training = true) :
    reader.call recordsOf parse files (some c)
      = Except.ok ⟨((shardList c.num_input_pipelines c.input_pipeline_id
            files).flatMap recordsOf).map
          (parse (c.get_per_replica_batch_size
            reader.params.global_batch_size))⟩ := by
  rw [CriteoTFRecordReader.call]
  simp only [h, if_true, shuffleD, resolve_batch_size]

theorem call_some_eval {φ ρ α : Type} (reader : CriteoTFRecordReader)
    (recordsOf : φ → List ρ) (parse : Nat → ρ → Features α)
    (files : List φ) (c : InputContext)
    (h : reader.params.is_training = false) :
    reader.call recordsOf parse files (some c)
      = Except.ok ⟨((((shardList c.num_input_pipelines c.input_pipeline_id
              files).flatMap recordsOf).map
            (parse (c.get_per_replica_batch_size
              reader.params.global_batch_size)))
          ++ padding_tail
              (c.get_per_replica_batch_size reader.params.global_batch_size)
              ((((shardList c.num_input_pipelines c.input_pipeline_id
                  files).flatMap recordsOf).map
                (parse (c.get_per_replica_batch_size
                  reader.params.global_batch_size))))).take
          (numDatasetBatches reader.global_batch_size)⟩ := by
  rw [CriteoTFRecordReader.call]
  simp only [h, if_false, Bool.false_eq_true, shuffleD, resolve_batch_size]

/-- C1: Dataset.shard(n, i) assigns worker i exactly the files whose
position in the file list is congruent to i modulo n (the positions
posIdx n i); the position sets of two distinct workers are disjoint; and
the concatenation of the n shards is a permutation of the whole file list,
so every file is read by exactly one worker. -/
theorem shard_round_robin_partition {α : Type} (n i j : Nat) (l : List α)
    (hn : 1 ≤ n) (hi : i < n) (hj : j < n) (hij : i ≠ j) :
    shardList n i l = (posIdx n i l.length).filterMap l.get?
    ∧ List.Disjoint (posIdx n i l.length) (posIdx n j l.length)
    ∧ ((List.range n).flatMap (fun w => shardList n w l)).Perm l :=
  ⟨shard_eq_posIdx n i l, posIdx_disjoint n i j l.length hij,
    shards_flatMap_perm n hn l⟩

/-- Witness for shard_round_robin_partition at n = 2, i = 0, j = 1 and a
three-file list. -/
theorem shard_round_robin_partition_witness :
    (1 ≤ 2) ∧ (0 < 2) ∧ (1 < 2) ∧ (0 ≠ 1)
    ∧ (shardList 2 0 ["a", "b", "c"]
          = (posIdx 2 0 (["a", "b", "c"] : List String).length).filterMap
              (["a", "b", "c"] : List String).get?
        ∧ List.Disjoint (posIdx 2 0 (["a", "b", "c"] : List String).length)
            (posIdx 2 1 (["a", "b", "c"] : List String).length)
        ∧ ((List.range 2).flatMap
              (fun w => shardList 2 w ["a", "b", "c"])).Perm ["a", "b", "c"]) :=
  ⟨by decide, by decide, by decide, by decide,
    shard_round_robin_partition 2 0 1 ["a", "b", "c"]
      (by decide) (by decide) (by decide) (by decide)⟩

/-- C8: the parallelism computed on invocation (line 118) is
max(1, min(8, F / n)); it equals the other clamp order min(8, max(1, F / n))
and always lies in the interval [1, 8]. -/
theorem parallelism_clamped (F n : Nat) (hn : 1 ≤ n) :
    parallelismOf F n = min 8 (max 1 (F / n))
    ∧ 1 ≤ parallelismOf F n ∧ parallelismOf F n ≤ 8 := by
  rw [parallelismOf]
  omega

/-- Witness for parallelism_clamped at F = 20, n = 4. -/
theorem parallelism_clamped_witness :
    (1 ≤ 4)
    ∧ (parallelismOf 20 4 = min 8 (max 1 (20 / 4))
        ∧ 1 ≤ parallelismOf 20 4 ∧ parallelismOf 20 4 ≤ 8) :=
  ⟨by decide, parallelism_clamped 20 4 (by decide)⟩

/-- C4 (code bug): with an absent worker context the batch-size resolution
falls back to the global batch size, but pipeline construction then always
fails, because line 118 reads ctx.num_input_pipelines unconditionally; the
call raises instead of building a single-worker pipeline. -/
theorem call_none_attribute_error {φ ρ α : Type} (reader : CriteoTFRecordReader)
    (recordsOf : φ → List ρ) (parse : Nat → ρ → Features α) (files : List φ)
    (g : Nat) :
    resolve_batch_size none g = g
    ∧ reader.call recordsOf parse files none
        = Except.error "NoneType has no member num_input_pipelines" :=
  ⟨rfl, rfl⟩

/-- C9: construction is pure in this embedding (a function of its
arguments with no filesystem access) and only stores configuration; the
derived field-name lists are the same for every combination of constructor
arguments: the label name is clicked, the dense names are int-feature-1
through int-feature-13 in order, and the sparse names are
categorical-feature-14 through categorical-feature-39 in order. -/
theorem init_stores_config_and_fixed_names (fp : String) (params : DataConfig)
    (ndf : Nat) (vocab multi : List Nat) (thr : Nat) :
    (CriteoTFRecordReader.init fp params ndf vocab multi thr).label_features
        = "clicked"
    ∧ (CriteoTFRecordReader.init fp params ndf vocab multi thr).dense_features
        = ["int-feature-1", "int-feature-2", "int-feature-3", "int-feature-4",
           "int-feature-5", "int-feature-6", "int-feature-7", "int-feature-8",
           "int-feature-9", "int-feature-10", "int-feature-11",
           "int-feature-12", "int-feature-13"]
    ∧ (CriteoTFRecordReader.init fp params ndf vocab multi thr).sparse_features
        = ["categorical-feature-14", "categorical-feature-15",
           "categorical-feature-16", "categorical-feature-17",
           "categorical-feature-18", "categorical-feature-19",
           "categorical-feature-20", "categorical-feature-21",
           "categorical-feature-22", "categorical-feature-23",
           "categorical-feature-24", "categorical-feature-25",
           "categorical-feature-26", "categorical-feature-27",
           "categorical-feature-28", "categorical-feature-29",
           "categorical-feature-30", "categorical-feature-31",
           "categorical-feature-32", "categorical-feature-33",
           "categorical-feature-34", "categorical-feature-35",
           "categorical-feature-36", "categorical-feature-37",
           "categorical-feature-38", "categorical-feature-39"]
    ∧ (CriteoTFRecordReader.init fp params ndf vocab multi thr).file_pattern = fp
    ∧ (CriteoTFRecordReader.init fp params ndf vocab multi thr).params = params
    ∧ (CriteoTFRecordReader.init fp params ndf vocab multi thr).num_files
        = params.num_shards
    ∧ (CriteoTFRecordReader.init fp params ndf vocab multi thr).num_dense_features
        = ndf
    ∧ (CriteoTFRecordReader.init fp params ndf vocab multi thr).vocab_sizes = vocab
    ∧ (CriteoTFRecordReader.init fp params ndf vocab multi thr).multi_hot_sizes
        = multi
    ∧ (CriteoTFRecordReader.init fp params ndf vocab multi thr).embedding_threshold
        = thr
    ∧ (CriteoTFRecordReader.init fp params ndf vocab multi thr).global_batch_size
        = params.global_batch_size :=
  ⟨rfl, rfl, rfl, rfl, rfl, rfl, rfl, rfl, rfl, rfl, rfl⟩

/-- C3: when at least one real batch exists, the padding tail is exactly
one hundred copies of the first available batch relabeled by
_mark_as_padding: its clicked vector is batch_size copies of -1, and its
dense_features and sparse_features are identical to those of the real
batch it was cloned from. -/
theorem padding_batches_marked {α : Type} (b : Nat)
    (batches : List (Features α)) (h : batches ≠ []) :
    ∃ first, batches.head? = some first
      ∧ padding_tail b batches = List.replicate 100 (mark_as_padding b first)
      ∧ (mark_as_padding b first).clicked = List.replicate b (-1)
      ∧ (mark_as_padding b first).dense_features = first.dense_features
      ∧ (mark_as_padding b first).sparse_features = first.sparse_features := by
  obtain ⟨x, rest, rfl⟩ := List.exists_cons_of_ne_nil h
  exact ⟨x, rfl, padding_tail_cons b x rest, rfl, rfl, rfl⟩

/-- Witness for padding_batches_marked with one real batch at batch size 2. -/
theorem padding_batches_marked_witness :
    ([wBatch] ≠ ([] : List (Features Int)))
    ∧ ∃ first, ([wBatch] : List (Features Int)).head? = some first
        ∧ padding_tail 2 [wBatch] = List.replicate 100 (mark_as_padding 2 first)
        ∧ (mark_as_padding 2 first).clicked = List.replicate 2 (-1)
        ∧ (mark_as_padding 2 first).dense_features = first.dense_features
        ∧ (mark_as_padding 2 first).sparse_features = first.sparse_features :=
  ⟨by decide, padding_batches_marked 2 [wBatch] (by decide)⟩

/-- C7 (amended): for a training reader whose per-worker file shard
contains at least one record, the produced batch sequence is infinite:
every element request succeeds.  The file shuffle and repeat make the
record stream the cycled per-pass record sequence of the shard. -/
theorem training_pipeline_infinite {φ ρ α : Type} (fp : String)
    (params : DataConfig) (ndf : Nat) (vocab multi : List Nat) (thr : Nat)
    (recordsOf : φ → List ρ) (parse : Nat → ρ → Features α) (files : List φ)
    (c : InputContext) (htrain : params.is_training = true)
    (hrec : (shardList c.num_input_pipelines c.input_pipeline_id
        files).flatMap recordsOf ≠ []) :
    ∃ d, (CriteoTFRecordReader.init fp params ndf vocab multi thr).call
          recordsOf parse files (some c) = Except.ok d
      ∧ d.infinite := by
  refine ⟨_, call_some_training _ recordsOf parse files c htrain, ?_⟩
  apply nth_isSome_of_ne_nil
  simp only [ne_eq, List.map_eq_nil_iff]
  exact hrec

/-- Witness for training_pipeline_infinite: one file holding one record. -/
theorem training_pipeline_infinite_witness :
    (w7Params.is_training = true)
    ∧ ((shardList wCtx.num_input_pipelines wCtx.input_pipeline_id
          [()]).flatMap wRecordsOf ≠ [])
    ∧ ∃ d, (CriteoTFRecordReader.init "pat" w7Params 13 [] [] 0).call
          wRecordsOf wParse [()] (some wCtx) = Except.ok d
        ∧ d.infinite :=
  ⟨rfl, by decide,
    training_pipeline_infinite "pat" w7Params 13 [] [] 0 wRecordsOf wParse
      [()] wCtx rfl (by decide)⟩

/-- C7 counterexample: a training worker whose non-empty shard consists of
one file with no records; the shard is non-empty, yet already the first
batch request fails, so the produced sequence is not infinite. -/
theorem training_pipeline_infinite_counterexample :
    shardList 1 0 [()] = [()]
    ∧ Except.map (fun d => RepeatedDataset.nth d 0)
        ((CriteoTFRecordReader.init "pat" w7Params 13 [] [] 0).call
          x7RecordsOf wParse [()] (some wCtx))
      = Except.ok none :=
  ⟨by decide, by exact rfl⟩

/-- C2 (amended): for an evaluation reader whose per-worker record stream
is non-empty and, together with the 100 padding batches, holds at least
num_dataset_batches batches, the cached-and-repeated period contains
exactly (89137319 + B - 1) / B batches for the global batch size B; this
count is the ceiling of 89137319 / B, characterized by the two
inequalities, and it depends only on B, not on the worker index, worker
count, or per-replica batch size. -/
theorem eval_cached_batch_count {φ ρ α : Type} (fp : String)
    (params : DataConfig) (ndf : Nat) (vocab multi : List Nat) (thr : Nat)
    (recordsOf : φ → List ρ) (parse : Nat → ρ → Features α) (files : List φ)
    (c : InputContext) (heval : params.is_training = false)
    (hB : 0 < params.global_batch_size)
    (hne : (shardList c.num_input_pipelines c.input_pipeline_id
        files).flatMap recordsOf ≠ [])
    (henough : numDatasetBatches params.global_batch_size
      ≤ ((shardList c.num_input_pipelines c.input_pipeline_id
          files).flatMap recordsOf).length + 100) :
    ∃ d, (CriteoTFRecordReader.init fp params ndf vocab multi thr).call
          recordsOf parse files (some c) = Except.ok d
      ∧ d.period.length = numDatasetBatches params.global_batch_size
      ∧ NUM_DATASET_SAMPLES
          ≤ params.global_batch_size * numDatasetBatches params.global_batch_size
      ∧ params.global_batch_size * numDatasetBatches params.global_batch_size
          < NUM_DATASET_SAMPLES + params.global_batch_size := by
  obtain ⟨hc1, hc2⟩ := numDatasetBatches_ceil params.global_batch_size hB
  refine ⟨_, call_some_eval _ recordsOf parse files c heval, ?_, hc1, hc2⟩
  have hgb : (CriteoTFRecordReader.init fp params ndf vocab multi thr).global_batch_size
      = params.global_batch_size := rfl
  have hbatches_ne : (((shardList c.num_input_pipelines c.input_pipeline_id
        files).flatMap recordsOf).map
      (parse (c.get_per_replica_batch_size
        (CriteoTFRecordReader.init fp params ndf vocab multi
          thr).params.global_batch_size))) ≠ [] := by
    simp only [ne_eq, List.map_eq_nil_iff]
    exact hne
  show ((_ ++ padding_tail _ _).take _).length = _
  rw [List.length_take, List.length_append, List.length_map,
    padding_tail_length _ _ hbatches_ne, hgb]
  have hlen := henough
  omega

/-- Witness for eval_cached_batch_count: global batch size 89137319, one
record, hence one real batch and a count of one. -/
theorem eval_cached_batch_count_witness :
    (w2Params.is_training = false)
    ∧ (0 < w2Params.global_batch_size)
    ∧ ((shardList wCtx.num_input_pipelines wCtx.input_pipeline_id
          [()]).flatMap wRecordsOf ≠ [])
    ∧ (numDatasetBatches w2Params.global_batch_size
        ≤ ((shardList wCtx.num_input_pipelines wCtx.input_pipeline_id
            [()]).flatMap wRecordsOf).length + 100)
    ∧ ∃ d, (CriteoTFRecordReader.init "pat" w2Params 13 [] [] 0).call
          wRecordsOf wParse [()] (some wCtx) = Except.ok d
        ∧ d.period.length = numDatasetBatches w2Params.global_batch_size
        ∧ NUM_DATASET_SAMPLES
            ≤ w2Params.global_batch_size
              * numDatasetBatches w2Params.global_batch_size
        ∧ w2Params.global_batch_size
              * numDatasetBatches w2Params.global_batch_size
            < NUM_DATASET_SAMPLES + w2Params.global_batch_size :=
  ⟨rfl, by decide, by decide, by decide,
    eval_cached_batch_count "pat" w2Params 13 [] [] 0 wRecordsOf wParse [()]
      wCtx rfl (by decide) (by decide) (by decide)⟩

/-- C2 counterexample: an evaluation worker with global batch size 89137
whose shard yields a single real batch.  The claimed per-epoch count is
ceil(89137319 / 89137) = 1001, but the cached period holds only 101
batches: the one real batch plus the 100 padding batches, truncation
cannot make up the difference. -/
theorem eval_cached_batch_count_counterexample :
    Except.map (fun d => d.period.length)
        ((CriteoTFRecordReader.init "pat" x2Params 13 [] [] 0).call
          wRecordsOf wParse [()] (some wCtx))
      = Except.ok 101
    ∧ numDatasetBatches x2Params.global_batch_size = 1001
    ∧ (101 : Nat) ≠ 1001 :=
  ⟨by exact rfl, by exact rfl, by decide⟩

theorem parse_fn_eq_some {α : Type} [Inhabited α] (reader : CriteoTFRecordReader)
    (b : Nat) (r : SerializedRecord α) (f : Features α)
    (h : parse_fn reader b r = some f) :
    ∃ cols sparse,
      fetchDense r b reader.dense_features = some cols
      ∧ buildSparse r b reader.multi_hot_sizes reader.vocab_sizes
          reader.embedding_threshold 0 reader.sparse_features = some sparse
      ∧ (r.int64Field reader.label_features).length = b
      ∧ f = { clicked := r.int64Field reader.label_features
              dense_features := concatCols b cols
              sparse_features := sparse } := by
  rw [parse_fn] at h
  by_cases hl : (r.int64Field reader.label_features).length = b
  · rw [if_pos hl] at h
    cases hcols : fetchDense r b reader.dense_features with
    | none => rw [hcols] at h; cases h
    | some cols =>
      rw [hcols, Option.some_bind] at h
      cases hsp : buildSparse r b reader.multi_hot_sizes reader.vocab_sizes
          reader.embedding_threshold 0 reader.sparse_features with
      | none => rw [hsp] at h; cases h
      | some sparse =>
        rw [hsp, Option.map_some'] at h
        injection h with h2
        exact ⟨cols, sparse, rfl, rfl, hl, h2.symm⟩
  · rw [if_neg hl] at h
    cases h

/-- C5: for every record parsed successfully at batch size b, clicked is
the int64 label vector of length b; dense_features is a b x 13 matrix
whose column j holds the field int-feature-(j+1) in the fixed enumeration
order; sparse_features has exactly the keys "0" through "25" in order,
entry i coming from field categorical-feature-(i+14) with logical shape
[b, multi_hot_sizes[i]]; and the feature spec assigns shape [b] with dtype
int64 to the label, float32 to the 13 dense fields and string to the 26
sparse fields. -/
theorem parse_batch_shape {α : Type} [Inhabited α] (fp : String)
    (params : DataConfig) (ndf : Nat) (vocab multi : List Nat) (thr b : Nat)
    (r : SerializedRecord α) (f : Features α)
    (h : parse_fn (CriteoTFRecordReader.init fp params ndf vocab multi thr) b r
      = some f) :
    f.clicked = r.int64Field "clicked"
    ∧ f.clicked.length = b
    ∧ f.dense_features.length = b
    ∧ f.dense_features.map List.length = List.replicate b 13
    ∧ colsOf 13 f.dense_features
        = ((List.range' 1 13).map (fun x => "int-feature-" ++ toString x)).map
            r.floatField
    ∧ f.sparse_features.map Prod.fst = (List.range 26).map toString
    ∧ f.sparse_features.map (fun p => p.2.logical)
        = ((List.range 26).zip
            ((List.range' 14 26).map
              (fun x => "categorical-feature-" ++ toString x))).map
            (fun q => chunkMat (r.bytesField q.2) b (multi.getD q.1 0))
    ∧ f.sparse_features.map
          (fun p => (p.2.logical.length, p.2.logical.map List.length))
        = (List.range 26).map (fun i2 => (b, List.replicate b (multi.getD i2 0)))
    ∧ (get_feature_spec (CriteoTFRecordReader.init fp params ndf vocab multi thr)
          b).map (fun p => p.2)
        = { shape := [b], dtype := DType.int64 }
          :: (List.replicate 13 { shape := [b], dtype := DType.float32 }
            ++ List.replicate 26 { shape := [b], dtype := DType.string }) := by
  obtain ⟨cols, sparse, hcols, hsp, hl, hf⟩ := parse_fn_eq_some _ b r f h
  obtain ⟨hc1, hc2⟩ := fetchDense_eq_some r b _ cols hcols
  obtain ⟨hs1, hs2, hs3, hs4⟩ := buildSparse_eq_some r b _ _ _ _ 0 sparse hsp
  subst hf
  subst hc1
  exact ⟨rfl, hl, concatCols_length b _, concatCols_row_length b _,
    colsOf_concatCols b _ hc2, hs1, hs3, hs4, rfl⟩

/-- Witness for parse_batch_shape on the concrete reader and record at
batch size 1. -/
theorem parse_batch_shape_witness :
    (parse_fn (CriteoTFRecordReader.init "criteo*.tfrecord" wParams 13 wVocab
        wMulti 5) 1 wRecord = some wFeatures)
    ∧ (wFeatures.clicked = wRecord.int64Field "clicked"
      ∧ wFeatures.clicked.length = 1
      ∧ wFeatures.dense_features.length = 1
      ∧ wFeatures.dense_features.map List.length = List.replicate 1 13
      ∧ colsOf 13 wFeatures.dense_features
          = ((List.range' 1 13).map (fun x => "int-feature-" ++ toString x)).map
              wRecord.floatField
      ∧ wFeatures.sparse_features.map Prod.fst = (List.range 26).map toString
      ∧ wFeatures.sparse_features.map (fun p => p.2.logical)
          = ((List.range 26).zip
              ((List.range' 14 26).map
                (fun x => "categorical-feature-" ++ toString x))).map
              (fun q => chunkMat (wRecord.bytesField q.2) 1 (wMulti.getD q.1 0))
      ∧ wFeatures.sparse_features.map
            (fun p => (p.2.logical.length, p.2.logical.map List.length))
          = (List.range 26).map
              (fun i2 => (1, List.replicate 1 (wMulti.getD i2 0)))
      ∧ (get_feature_spec (CriteoTFRecordReader.init "criteo*.tfrecord" wParams
            13 wVocab wMulti 5) 1).map (fun p => p.2)
          = { shape := [1], dtype := DType.int64 }
            :: (List.replicate 13 { shape := [1], dtype := DType.float32 }
              ++ List.replicate 26 { shape := [1], dtype := DType.string })) :=
  ⟨by decide, parse_batch_shape "criteo*.tfrecord" wParams 13 wVocab wMulti 5 1
      wRecord wFeatures (by decide)⟩

/-- C6: for every successfully parsed record, sparse entry i is a dense
matrix exactly when vocab_sizes[i] is at most the embedding threshold, and
in either representation its logical (densified) values are exactly the
reshaped decoded bytes of its field: the representation choice preserves
the decoded int64 values. -/
theorem sparse_representation_by_threshold {α : Type} [Inhabited α]
    (fp : String) (params : DataConfig) (ndf : Nat) (vocab multi : List Nat)
    (thr b : Nat) (r : SerializedRecord α) (f : Features α)
    (h : parse_fn (CriteoTFRecordReader.init fp params ndf vocab multi thr) b r
      = some f) :
    f.sparse_features.map (fun p => p.2.isDense)
        = (List.range 26).map (fun i2 => decide (vocab.getD i2 0 ≤ thr))
    ∧ f.sparse_features.map (fun p => p.2.logical)
        = ((List.range 26).zip
            ((List.range' 14 26).map
              (fun x => "categorical-feature-" ++ toString x))).map
            (fun q => chunkMat (r.bytesField q.2) b (multi.getD q.1 0)) := by
  obtain ⟨cols, sparse, hcols, hsp, hl, hf⟩ := parse_fn_eq_some _ b r f h
  obtain ⟨hs1, hs2, hs3, hs4⟩ := buildSparse_eq_some r b _ _ _ _ 0 sparse hsp
  subst hf
  exact ⟨hs2, hs3⟩

/-- Witness for sparse_representation_by_threshold: with threshold 5 the
alternating vocabulary sizes 3 and 9 yield alternating dense and sparse
representations with identical logical values. -/
theorem sparse_representation_by_threshold_witness :
    (parse_fn (CriteoTFRecordReader.init "criteo*.tfrecord" wParams 13 wVocab
        wMulti 5) 1 wRecord = some wFeatures)
    ∧ (wFeatures.sparse_features.map (fun p => p.2.isDense)
          = (List.range 26).map (fun i2 => decide (wVocab.getD i2 0 ≤ 5))
      ∧ wFeatures.sparse_features.map (fun p => p.2.logical)
          = ((List.range 26).zip
              ((List.range' 14 26).map
                (fun x => "categorical-feature-" ++ toString x))).map
              (fun q => chunkMat (wRecord.bytesField q.2) 1
                (wMulti.getD q.1 0))) :=
  ⟨by decide, sparse_representation_by_threshold "criteo*.tfrecord" wParams 13
      wVocab wMulti 5 1 wRecord wFeatures (by decide)⟩

/-- C10: num_dense_features is stored but never read by parsing or
pipeline construction: parsing gives identical results for any two values
of the parameter, the derived dense field list always has exactly 13
entries, the feature spec contains exactly 13 float32 dense fields, and
every successfully parsed batch has dense rows of width 13. -/
theorem num_dense_features_unused {α : Type} [Inhabited α] (fp : String)
    (params : DataConfig) (ndf ndf2 : Nat) (vocab multi : List Nat)
    (thr b : Nat) (r : SerializedRecord α) (f : Features α)
    (h : parse_fn (CriteoTFRecordReader.init fp params ndf vocab multi thr) b r
      = some f) :
    parse_fn (CriteoTFRecordReader.init fp params ndf vocab multi thr) b r
        = parse_fn (CriteoTFRecordReader.init fp params ndf2 vocab multi thr) b r
    ∧ (CriteoTFRecordReader.init fp params ndf vocab multi
        thr).dense_features.length = 13
    ∧ ((get_feature_spec (CriteoTFRecordReader.init fp params ndf vocab multi
          thr) b).filter (fun p => p.2.dtype == DType.float32)).length = 13
    ∧ f.dense_features.map List.length = List.replicate b 13 := by
  obtain ⟨cols, sparse, hcols, hsp, hl, hf⟩ := parse_fn_eq_some _ b r f h
  obtain ⟨hc1, hc2⟩ := fetchDense_eq_some r b _ cols hcols
  subst hf
  subst hc1
  exact ⟨rfl, rfl, rfl, concatCols_row_length b _⟩

/-- Witness for num_dense_features_unused, comparing the stored values 13
and 99. -/
theorem num_dense_features_unused_witness :
    (parse_fn (CriteoTFRecordReader.init "criteo*.tfrecord" wParams 13 wVocab
        wMulti 5) 1 wRecord = some wFeatures)
    ∧ (parse_fn (CriteoTFRecordReader.init "criteo*.tfrecord" wParams 13 wVocab
          wMulti 5) 1 wRecord
        = parse_fn (CriteoTFRecordReader.init "criteo*.tfrecord" wParams 99
            wVocab wMulti 5) 1 wRecord
      ∧ (CriteoTFRecordReader.init "criteo*.tfrecord" wParams 13 wVocab wMulti
          5).dense_features.length = 13
      ∧ ((get_feature_spec (CriteoTFRecordReader.init "criteo*.tfrecord" wParams
            13 wVocab wMulti 5) 1).filter
          (fun p => p.2.dtype == DType.float32)).length = 13
      ∧ wFeatures.dense_features.map List.length = List.replicate 1 13) :=
  ⟨by decide, num_dense_features_unused "criteo*.tfrecord" wParams 13 99 wVocab
      wMulti 5 1 wRecord wFeatures (by decide)⟩
